import Mathlib

/-!
Verification of the poster-scraper (`src/scrape.py`) against its
natural-language specification.

The Python program is embedded shallowly:

* `sanitize_filename` embeds `SAFE_CHARS.sub("_", name)[:max_len] + ".jpg"`
  where `SAFE_CHARS = re.compile(r"[^A-Za-z0-9._-]+")` — note the `+`:
  a maximal run of unsafe characters is replaced by a single `_`.
* The outside world seen by one fetch invocation (the HTTP response,
  whether the image-file write succeeds, whether each append to the
  failure log succeeds) is an explicit oracle `Env`.
* Mutable state (the files written, the failure-log records, the number
  of Failure-Recorder invocations, the semaphore's available slots) is
  an explicit `St` threaded through the functions.
* Python exceptions are modelled by `Except Exc`; `Exc.transport` says
  whether the exception is caught by
  `except (aiohttp.ClientError, asyncio.TimeoutError)` as opposed to the
  generic `except Exception`.  `traceback.format_exc()` is abstracted to
  the exception's name; a failed file/log write raises `OSError`.
* `asyncio.Semaphore` blocking is not modelled: theorems about the gate
  assume at least one slot is available, which is the situation of a
  single invocation under the program's capacity of 500.
* `scrape_all` sequentialises the concurrent `gather`: tasks are run in
  row order, the first uncaught exception propagates, and the non-`None`
  results are collected in task order, as
  `[r for r in await tqdm.gather(*tasks) if r is not None]` does.
* IMDB scores are only carried through, never inspected; they are
  modelled as `Int` to keep equality decidable.
-/

/-- Character class of `SAFE_CHARS`: `A–Z`, `a–z`, `0–9`, `.`, `_`, `-`. -/
def isSafeChar (c : Char) : Bool :=
  ('A' ≤ c && c ≤ 'Z') || ('a' ≤ c && c ≤ 'z') || ('0' ≤ c && c ≤ '9') ||
    c == '.' || c == '_' || c == '-'

/-- Embeds `re.sub("[^A-Za-z0-9._-]+", "_", ·)` on a character list.
The flag records whether the previous character was part of an unsafe run,
so that a maximal unsafe run contributes a single `'_'`. -/
def safe_sub : List Char → Bool → List Char
  | [], _ => []
  | c :: rest, inRun =>
    if isSafeChar c then c :: safe_sub rest false
    else if inRun then safe_sub rest true
    else '_' :: safe_sub rest true

/-- Embeds `sanitize_filename` from `src/scrape.py`:
`SAFE_CHARS.sub("_", name)[:max_len] + ".jpg"`.  The Python default
`max_len = 100` is passed explicitly at call sites. -/
def sanitize_filename (name : String) (max_len : Nat) : String :=
  ⟨(safe_sub name.data false).take max_len ++ ".jpg".data⟩

/-- Version written from the spec's words, for comparison only:
"Replace every character outside the set ... with `_`" — i.e. a
character-by-character replacement, not a run-collapsing one. -/
def sanitize_spec (name : String) (max_len : Nat) : String :=
  ⟨(name.data.map (fun c => if isSafeChar c then c else '_')).take max_len ++ ".jpg".data⟩

/-- Modelled from the spec: a url "starts with an HTTP(S) scheme". -/
def startsWithHttpScheme (u : String) : Bool :=
  List.isPrefixOf "http:".data u.data || List.isPrefixOf "https:".data u.data

/-- A Python exception: its type name and whether it falls under
`except (aiohttp.ClientError, asyncio.TimeoutError)`. -/
structure Exc where
  name : String
  transport : Bool
deriving DecidableEq, Repr

/-- Oracle for `resp.read()`: the body bytes, or an exception raised
while reading. -/
inductive BodyRead where
  | bytes (content : List Nat)
  | raise (e : Exc)
deriving DecidableEq, Repr

/-- Oracle for `session.get(url)`: an exception during connect, or a
response carrying a status code and a body-read oracle. -/
inductive HttpStep where
  | raise (e : Exc)
  | resp (status : Nat) (read : BodyRead)
deriving DecidableEq, Repr

/-- The outside world seen by one fetch invocation.  `logOk n` says
whether the `n`-th append to the failure log (counted globally by
`St.logCalls`) succeeds. -/
structure Env where
  http : HttpStep
  writeOk : Bool
  logOk : Nat → Bool

/-- One record of `poster_download_failures.jsonl`; `url = none` models a
NaN `Poster` cell, `traceback = none` the default `tb=None`. -/
structure FailureRecord where
  title : String
  url : Option String
  reason : String
  traceback : Option String
deriving DecidableEq, Repr

/-- The mutable world: files written (later writes shadow earlier
bindings), the failure-log records, how many times the Failure Recorder
was invoked, and the semaphore's available slots. -/
structure St where
  files : List (String × List Nat)
  log : List FailureRecord
  logCalls : Nat
  semAvail : Nat
deriving DecidableEq, Repr

/-- File-system write: `open(path, "wb")` followed by a full write. -/
def setFile (files : List (String × List Nat)) (path : String) (content : List Nat) :
    List (String × List Nat) :=
  (path, content) :: files

/-- Look up the current contents of a file. -/
def lookupFile (files : List (String × List Nat)) (path : String) : Option (List Nat) :=
  (files.find? (fun pc => pc.1 == path)).map (fun pc => pc.2)

/-- Embeds `log_failure` from `src/scrape.py`.  Every invocation is
counted; the append succeeds when the oracle says so, otherwise the
`OSError` from `aiofiles.open`/`write` propagates to the caller — the
Python function has no exception handler of its own. -/
def log_failure (env : Env) (title : String) (url : Option String) (reason : String)
    (tb : Option String) (st : St) : Except Exc Unit × St :=
  if env.logOk st.logCalls then
    (.ok (), { st with logCalls := st.logCalls + 1,
                       log := st.log ++ [⟨title, url, reason, tb⟩] })
  else
    (.error ⟨"OSError", false⟩, { st with logCalls := st.logCalls + 1 })

/-- Embeds `pd.isna(url) or not url.startswith("http")`: Python's
`startswith` compares code points, i.e. a list-prefix test on `data`. -/
def url_invalid : Option String → Bool
  | none => true
  | some u => !(List.isPrefixOf "http".data u.data)

def IMAGE_DIR : String := "poster_images"

/-- The body of the `try:` block of `fetch_image` (lines 73–80 of
`src/scrape.py`): issue the GET, check the status (logging
`http_status_<code>` on a non-200), read the body, write the file.
Any exception escapes as `.error` to be classified by the handlers. -/
def try_body (env : Env) (title : String) (url : Option String) (imagepath : String)
    (score : Int) (st : St) : Except Exc (Option (String × Int)) × St :=
  match env.http with
  | .raise e => (.error e, st)
  | .resp status readRes =>
    if status ≠ 200 then
      match log_failure env title url ("http_status_" ++ toString status) none st with
      | (.ok _, st') => (.ok none, st')
      | (.error e, st') => (.error e, st')
    else
      match readRes with
      | .raise e => (.error e, st)
      | .bytes content =>
        if env.writeOk then
          (.ok (some (imagepath, score)), { st with files := setFile st.files imagepath content })
        else
          (.error ⟨"OSError", false⟩, { st with files := setFile st.files imagepath [] })

/-- The two `except` clauses of `fetch_image`: a transport error is
logged under the exception's type name, anything else under
`unexpected_<name>` with a traceback; then `return None`.  An exception
raised by `log_failure` itself escapes the handler. -/
def handle_exc (env : Env) (title : String) (url : Option String) (e : Exc) (st : St) :
    Except Exc (Option (String × Int)) × St :=
  let reason := if e.transport then e.name else "unexpected_" ++ e.name
  let tb : Option String := if e.transport then none else some e.name
  match log_failure env title url reason tb st with
  | (.ok _, st') => (.ok none, st')
  | (.error e2, st') => (.error e2, st')

/-- Exit of the `async with sem:` block: the slot is released on the
normal and on the exceptional exit alike. -/
def release (p : Except Exc (Option (String × Int)) × St) :
    Except Exc (Option (String × Int)) × St :=
  (p.1, { p.2 with semAvail := p.2.semAvail + 1 })

/-- Embeds `fetch_image` from `src/scrape.py`: validate the url (logging
`invalid_or_missing_url` outside any handler), compute the target path,
acquire the semaphore, run the guarded body, handle exceptions, release
the slot unconditionally. -/
def fetch_image (env : Env) (title : String) (url : Option String) (score : Int)
    (st : St) : Except Exc (Option (String × Int)) × St :=
  if url_invalid url then
    match log_failure env title url "invalid_or_missing_url" none st with
    | (.ok _, st') => (.ok none, st')
    | (.error e, st') => (.error e, st')
  else
    let imagepath := IMAGE_DIR ++ "/" ++ sanitize_filename title 100
    let st₁ := { st with semAvail := st.semAvail - 1 }
    match try_body env title url imagepath score st₁ with
    | (.ok v, st₂) => release (.ok v, st₂)
    | (.error e, st₂) => release (handle_exc env title url e st₂)

/-- One input row: the `Title`, `Poster` (none models NaN) and
`IMDB Score` columns. -/
structure Row where
  title : String
  url : Option String
  score : Int
deriving DecidableEq, Repr

/-- Embeds `scrape_all`: run one `fetch_image` per row (sequentialising
the `gather`; each row carries its own oracle), propagate the first
uncaught exception, and collect the non-`None` results in task order. -/
def scrape_all : List (Env × Row) → St → Except Exc (List (String × Int)) × St
  | [], st => (.ok [], st)
  | (env, row) :: rest, st =>
    match fetch_image env row.title row.url row.score st with
    | (.error e, st') => (.error e, st')
    | (.ok r, st') =>
      match scrape_all rest st' with
      | (.error e, st'') => (.error e, st'')
      | (.ok rs, st'') =>
        (.ok (match r with | some p => p :: rs | none => rs), st'')

/-! ### Lemmas about the sanitizer -/

theorem safe_sub_all_safe (l : List Char) (b : Bool) :
    ∀ c ∈ safe_sub l b, isSafeChar c = true := by
  induction l generalizing b with
  | nil => intro c hc; simp [safe_sub] at hc
  | cons x xs ih =>
    intro c hc
    by_cases hx : isSafeChar x
    · simp only [safe_sub, hx, if_true, List.mem_cons] at hc
      rcases hc with h | h
      · exact h ▸ hx
      · exact ih false c h
    · cases b with
      | true =>
        simp only [safe_sub, hx, if_false, Bool.false_eq_true] at hc
        exact ih true c hc
      | false =>
        simp only [safe_sub, hx, if_false, Bool.false_eq_true, List.mem_cons] at hc
        rcases hc with h | h
        · subst h; decide
        · exact ih true c h

/-- C2 (amended): `sanitize_filename` truncates the substituted name to
`max_len` characters and appends `.jpg`, so the result has length at most
`max_len + 4`, consists only of permitted characters, and ends in `.jpg`
with a stem of at most `max_len` characters; as a Lean function it is
pure and total, hence deterministic. -/
theorem sanitize_filename_spec (name : String) (max_len : Nat) :
    (sanitize_filename name max_len).length ≤ max_len + 4 ∧
    (∀ c ∈ (sanitize_filename name max_len).data, isSafeChar c = true) ∧
    (∃ stem : List Char, sanitize_filename name max_len = ⟨stem ++ ".jpg".data⟩ ∧
      stem.length ≤ max_len) := by
  refine ⟨?_, ?_, ?_⟩
  · show ((safe_sub name.data false).take max_len ++ ".jpg".data).length ≤ max_len + 4
    rw [List.length_append]
    have h := List.length_take_le max_len (safe_sub name.data false)
    have h4 : (".jpg".data).length = 4 := rfl
    omega
  · intro c hc
    have hc' : c ∈ (safe_sub name.data false).take max_len ++ ".jpg".data := hc
    rcases List.mem_append.mp hc' with h | h
    · exact safe_sub_all_safe name.data false c (List.mem_of_mem_take h)
    · fin_cases h <;> decide
  · exact ⟨(safe_sub name.data false).take max_len, rfl,
      List.length_take_le max_len (safe_sub name.data false)⟩

/-- C2 (counterexample to the claim as stated): the regex
`[^A-Za-z0-9._-]+` replaces a maximal *run* of unsafe characters with a
single underscore, so `"a!!b"` sanitizes to `"a_b.jpg"`, while replacing
*every* unsafe character would give `"a__b.jpg"`. -/
theorem sanitize_filename_run_collapse_counterexample :
    sanitize_filename "a!!b" 100 = "a_b.jpg" ∧
    sanitize_spec "a!!b" 100 = "a__b.jpg" ∧
    sanitize_filename "a!!b" 100 ≠ sanitize_spec "a!!b" 100 := by
  refine ⟨rfl, rfl, ?_⟩
  decide

/-! ### Basic lemmas about the Failure Recorder and the try-block -/

theorem log_failure_fst (env : Env) (t : String) (u : Option String) (r : String)
    (tb : Option String) (st : St) :
    (log_failure env t u r tb st).1 =
      (if env.logOk st.logCalls then .ok () else .error ⟨"OSError", false⟩) := by
  unfold log_failure; split <;> rfl

theorem log_failure_snd_semAvail (env : Env) (t : String) (u : Option String) (r : String)
    (tb : Option String) (st : St) :
    ((log_failure env t u r tb st).2).semAvail = st.semAvail := by
  unfold log_failure; split <;> rfl

theorem log_failure_snd_files (env : Env) (t : String) (u : Option String) (r : String)
    (tb : Option String) (st : St) :
    ((log_failure env t u r tb st).2).files = st.files := by
  unfold log_failure; split <;> rfl

theorem log_failure_snd_logCalls (env : Env) (t : String) (u : Option String) (r : String)
    (tb : Option String) (st : St) :
    ((log_failure env t u r tb st).2).logCalls = st.logCalls + 1 := by
  unfold log_failure; split <;> rfl

theorem log_failure_snd_log (env : Env) (t : String) (u : Option String) (r : String)
    (tb : Option String) (st : St) :
    ((log_failure env t u r tb st).2).log =
      (if env.logOk st.logCalls then st.log ++ [⟨t, u, r, tb⟩] else st.log) := by
  unfold log_failure; split <;> simp_all

theorem try_body_semAvail (env : Env) (t : String) (u : Option String) (p : String)
    (sc : Int) (st : St) :
    ((try_body env t u p sc st).2).semAvail = st.semAvail := by
  unfold try_body
  cases env.http with
  | raise e => rfl
  | resp status readRes =>
    simp only
    split
    · split
      next r st' heq =>
        have h := log_failure_snd_semAvail env t u ("http_status_" ++ toString status) none st
        rw [heq] at h; exact h
      next e st' heq =>
        have h := log_failure_snd_semAvail env t u ("http_status_" ++ toString status) none st
        rw [heq] at h; exact h
    · split
      · rfl
      · split <;> rfl

theorem handle_exc_semAvail (env : Env) (t : String) (u : Option String) (e : Exc) (st : St) :
    ((handle_exc env t u e st).2).semAvail = st.semAvail := by
  unfold handle_exc
  simp only
  split
  next r st' heq =>
    have h := log_failure_snd_semAvail env t u
      (if e.transport then e.name else "unexpected_" ++ e.name)
      (if e.transport then none else some e.name) st
    rw [heq] at h; exact h
  next e2 st' heq =>
    have h := log_failure_snd_semAvail env t u
      (if e.transport then e.name else "unexpected_" ++ e.name)
      (if e.transport then none else some e.name) st
    rw [heq] at h; exact h

/-- C7: the admission-gate slot is released on every exit path of
`fetch_image` — normal return, classified failure, and an exception
propagating out of a handler alike — so the gate's available-slot count
after the invocation equals its pre-acquisition value.  The hypothesis
`0 < st.semAvail` says the acquisition did not block. -/
theorem fetch_image_semAvail (env : Env) (t : String) (u : Option String) (sc : Int)
    (st : St) (h : 0 < st.semAvail) :
    ((fetch_image env t u sc st).2).semAvail = st.semAvail := by
  unfold fetch_image
  split
  · split
    next r st' heq =>
      have h2 := log_failure_snd_semAvail env t u "invalid_or_missing_url" none st
      rw [heq] at h2; exact h2
    next e st' heq =>
      have h2 := log_failure_snd_semAvail env t u "invalid_or_missing_url" none st
      rw [heq] at h2; exact h2
  · simp only
    split
    next v st₂ heq =>
      have h2 := try_body_semAvail env t u (IMAGE_DIR ++ "/" ++ sanitize_filename t 100) sc
        { st with semAvail := st.semAvail - 1 }
      rw [heq] at h2
      have h2' : st₂.semAvail = st.semAvail - 1 := by simpa using h2
      simp only [release]
      rw [h2']
      omega
    next e st₂ heq =>
      have h2 := try_body_semAvail env t u (IMAGE_DIR ++ "/" ++ sanitize_filename t 100) sc
        { st with semAvail := st.semAvail - 1 }
      rw [heq] at h2
      have h2' : st₂.semAvail = st.semAvail - 1 := by simpa using h2
      have h3 := handle_exc_semAvail env t u e st₂
      simp only [release]
      rw [h3, h2']
      omega

/-- Witness for C7 at a concrete input: a transport-error fetch from a
one-slot gate restores the slot count to 1. -/
theorem fetch_image_semAvail_witness :
    ((fetch_image ⟨.raise ⟨"TimeoutError", true⟩, true, fun _ => true⟩ "t"
      (some "http://x") 3 ⟨[], [], 0, 1⟩).2).semAvail = 1 :=
  fetch_image_semAvail ⟨.raise ⟨"TimeoutError", true⟩, true, fun _ => true⟩ "t"
    (some "http://x") 3 ⟨[], [], 0, 1⟩ (by decide)

theorem log_failure_ok_inv (env : Env) (t : String) (u : Option String) (r : String)
    (tb : Option String) (st : St) (x : Unit) (st2 : St)
    (h : log_failure env t u r tb st = (.ok x, st2)) :
    env.logOk st.logCalls = true ∧
      st2 = { st with logCalls := st.logCalls + 1, log := st.log ++ [⟨t, u, r, tb⟩] } := by
  unfold log_failure at h
  split at h
  · simp only [Prod.mk.injEq] at h
    exact ⟨by assumption, h.2.symm⟩
  · simp at h

theorem log_failure_error_inv (env : Env) (t : String) (u : Option String) (r : String)
    (tb : Option String) (st : St) (e : Exc) (st2 : St)
    (h : log_failure env t u r tb st = (.error e, st2)) :
    env.logOk st.logCalls = false ∧ e = ⟨"OSError", false⟩ ∧
      st2 = { st with logCalls := st.logCalls + 1 } := by
  unfold log_failure at h
  split at h
  · simp at h
  · simp only [Prod.mk.injEq, Except.error.injEq] at h
    exact ⟨by simpa using (by assumption : ¬ env.logOk st.logCalls = true), h.1.symm, h.2.symm⟩

/-- Inversion for a normal exit of the try-block: either the status was
not 200 and the failure was logged (one appended record, no file), or the
status was 200, the body was read and the file was written (no log
activity). -/
theorem try_body_ok_inv (env : Env) (t : String) (u : Option String) (p : String)
    (sc : Int) (st : St) (v : Option (String × Int)) (st2 : St)
    (h : try_body env t u p sc st = (.ok v, st2)) :
    (∃ code rd, code ≠ 200 ∧ env.http = .resp code rd ∧ v = none ∧
      st2 = { st with logCalls := st.logCalls + 1,
                      log := st.log ++ [⟨t, u, "http_status_" ++ toString code, none⟩] }) ∨
    (∃ content, env.http = .resp 200 (.bytes content) ∧ env.writeOk = true ∧
      v = some (p, sc) ∧ st2 = { st with files := setFile st.files p content }) := by
  unfold try_body at h
  cases henv : env.http with
  | raise e => rw [henv] at h; simp at h
  | resp status readRes =>
    rw [henv] at h
    simp only at h
    split at h
    · split at h
      next x stA heq =>
        obtain ⟨hlog, hst⟩ := log_failure_ok_inv env t u _ none st x stA heq
        simp only [Prod.mk.injEq, Except.ok.injEq] at h
        left
        exact ⟨status, readRes, by assumption, rfl, h.1.symm, by rw [← h.2, hst]⟩
      next e stA heq => simp at h
    · split at h
      next e => simp at h
      next content =>
        have h200 : status = 200 := by omega
        split at h
        · simp only [Prod.mk.injEq, Except.ok.injEq] at h
          right
          refine ⟨content, ?_, by assumption, h.1.symm, h.2.symm⟩
          rw [h200]
        · simp at h

/-- Inversion for an exceptional exit of the try-block: no record was
appended on any raising path (in particular the `http_status` log attempt
that itself failed appended nothing), and the semaphore field is
untouched. -/
theorem try_body_error_inv (env : Env) (t : String) (u : Option String) (p : String)
    (sc : Int) (st : St) (e : Exc) (st2 : St)
    (h : try_body env t u p sc st = (.error e, st2)) :
    st2.log = st.log ∧ st2.semAvail = st.semAvail := by
  unfold try_body at h
  cases henv : env.http with
  | raise e' =>
    rw [henv] at h
    simp only [Prod.mk.injEq, Except.error.injEq] at h
    rw [← h.2]
    exact ⟨rfl, rfl⟩
  | resp status readRes =>
    rw [henv] at h
    simp only at h
    split at h
    · split at h
      next x stA heq => simp at h
      next e' stA heq =>
        obtain ⟨hlog, he, hst⟩ := log_failure_error_inv env t u _ none st e' stA heq
        simp only [Prod.mk.injEq, Except.error.injEq] at h
        rw [← h.2, hst]
        exact ⟨rfl, rfl⟩
    · split at h
      next e' =>
        simp only [Prod.mk.injEq, Except.error.injEq] at h
        rw [← h.2]
        exact ⟨rfl, rfl⟩
      next content =>
        split at h
        · simp at h
        · simp only [Prod.mk.injEq, Except.error.injEq] at h
          rw [← h.2]
          exact ⟨rfl, rfl⟩

/-- Inversion for a normal exit of the exception handlers: the handler's
own `log_failure` call succeeded and appended exactly one record. -/
theorem handle_exc_ok_inv (env : Env) (t : String) (u : Option String) (e : Exc)
    (st : St) (r : Option (String × Int)) (st2 : St)
    (h : handle_exc env t u e st = (.ok r, st2)) :
    r = none ∧
      st2 = { st with logCalls := st.logCalls + 1,
                      log := st.log ++ [⟨t, u,
                        (if e.transport then e.name else "unexpected_" ++ e.name),
                        (if e.transport then none else some e.name)⟩] } := by
  unfold handle_exc at h
  simp only at h
  split at h
  next x stA heq =>
    obtain ⟨hlog, hst⟩ := log_failure_ok_inv env t u _ _ st x stA heq
    simp only [Prod.mk.injEq, Except.ok.injEq] at h
    exact ⟨h.1.symm, by rw [← h.2, hst]⟩
  next e2 stA heq => simp at h

/-- A normally-completing fetch invocation either carries a success pair
and left the failure log (and the call counter) untouched, or carries no
pair and appended exactly one record to the failure log. -/
theorem fetch_image_ok_cases (env : Env) (t : String) (u : Option String) (sc : Int)
    (st : St) (res : Option (String × Int)) (st2 : St)
    (h : fetch_image env t u sc st = (.ok res, st2)) :
    (∃ p, res = some p ∧ st2.log = st.log ∧ st2.logCalls = st.logCalls) ∨
    (res = none ∧ st2.log.length = st.log.length + 1) := by
  unfold fetch_image at h
  split at h
  · split at h
    next x stA heq =>
      obtain ⟨hlog, hst⟩ := log_failure_ok_inv env t u _ none st x stA heq
      simp only [Prod.mk.injEq, Except.ok.injEq] at h
      right
      refine ⟨h.1.symm, ?_⟩
      rw [← h.2, hst]
      simp
    next e stA heq => simp at h
  · simp only at h
    split at h
    next v stB heq =>
      simp only [release, Prod.mk.injEq, Except.ok.injEq] at h
      obtain ⟨hres, hst2⟩ := h
      rcases try_body_ok_inv env t u _ sc _ v stB heq with
        ⟨code, rd, hcode, hhttp, hv, hstB⟩ | ⟨content, hhttp, hw, hv, hstB⟩
      · right
        refine ⟨by rw [← hres, hv], ?_⟩
        rw [← hst2, hstB]
        simp
      · left
        refine ⟨_, by rw [← hres, hv], ?_, ?_⟩ <;> rw [← hst2, hstB]
    next e stB heq =>
      have hlogB := try_body_error_inv env t u _ sc _ e stB heq
      cases hh : handle_exc env t u e stB with
      | mk r stC =>
        rw [hh] at h
        cases r with
        | error e2 => simp [release] at h
        | ok r0 =>
          simp only [release, Prod.mk.injEq, Except.ok.injEq] at h
          obtain ⟨hres, hst2⟩ := h
          obtain ⟨hr0, hstC⟩ := handle_exc_ok_inv env t u e stB r0 stC hh
          right
          constructor
          · rw [← hres]; exact hr0
          · rw [← hst2, hstC]
            simp [hlogB.1]

/-- Run-level accounting: in a run that completes, the number of success
pairs plus the number of failure-log records grows by exactly the number
of input rows. -/
theorem scrape_all_count (rows : List (Env × Row)) (st : St)
    (results : List (String × Int)) (st2 : St)
    (h : scrape_all rows st = (.ok results, st2)) :
    results.length + st2.log.length = rows.length + st.log.length := by
  induction rows generalizing st results st2 with
  | nil =>
    unfold scrape_all at h
    simp only [Prod.mk.injEq, Except.ok.injEq] at h
    rw [← h.1, ← h.2]
    simp only [List.length_nil]
  | cons head rest ih =>
    obtain ⟨env, row⟩ := head
    unfold scrape_all at h
    split at h
    next e stA heq => simp at h
    next r stA heq =>
      split at h
      next e stB heq2 => simp at h
      next rs stB heq2 =>
        simp only [Prod.mk.injEq, Except.ok.injEq] at h
        obtain ⟨hres, hst2⟩ := h
        have hcount := ih stA rs stB heq2
        rcases fetch_image_ok_cases env row.title row.url row.score st r stA heq with
          ⟨p, hp, hlog, _⟩ | ⟨hnone, hlen⟩
        · rw [← hres, ← hst2, hp]
          simp only [List.length_cons]
          rw [hlog] at hcount
          omega
        · rw [← hres, ← hst2, hnone]
          simp only [List.length_cons]
          omega

/-- C1 (amended): every fetch invocation that completes normally either
returns a success pair having left the failure log and the
Failure-Recorder call counter untouched, or returns no pair having
appended exactly one record to the failure log (possibly via two recorder
calls when the first call itself raised); consequently in a completed run
every row contributes exactly one entry to either the success collection
or the failure log — never both, never neither. -/
theorem fetch_outcome_exclusive_exhaustive :
    (∀ (env : Env) (t : String) (u : Option String) (sc : Int) (st : St)
        (res : Option (String × Int)) (st2 : St),
      fetch_image env t u sc st = (.ok res, st2) →
      (∃ p, res = some p ∧ st2.log = st.log ∧ st2.logCalls = st.logCalls) ∨
      (res = none ∧ st2.log.length = st.log.length + 1)) ∧
    (∀ (rows : List (Env × Row)) (st : St) (results : List (String × Int)) (st2 : St),
      scrape_all rows st = (.ok results, st2) →
      results.length + st2.log.length = rows.length + st.log.length) :=
  ⟨fetch_image_ok_cases, scrape_all_count⟩

/-- Witness for C1 (amended) at concrete inputs: a 404 row appends one
record and returns no pair; a one-row run has `0` successes and `1`
failure record. -/
theorem fetch_outcome_exclusive_exhaustive_witness :
    ((∃ p, (none : Option (String × Int)) = some p ∧
        ([⟨"b", some "http://b", "http_status_404", none⟩] : List FailureRecord) = [] ∧
        (1 : Nat) = 0) ∨
      ((none : Option (String × Int)) = none ∧
        ([⟨"b", some "http://b", "http_status_404", none⟩] : List FailureRecord).length =
          ([] : List FailureRecord).length + 1)) ∧
    ((0 : Nat) + 1 = 1 + 0) :=
  ⟨fetch_outcome_exclusive_exhaustive.1 ⟨.resp 404 (.bytes []), true, fun _ => true⟩
      "b" (some "http://b") 8 ⟨[], [], 0, 1⟩ none
      ⟨[], [⟨"b", some "http://b", "http_status_404", none⟩], 1, 1⟩ (by rfl),
    fetch_outcome_exclusive_exhaustive.2
      [(⟨.resp 404 (.bytes []), true, fun _ => true⟩, ⟨"b", some "http://b", 8⟩)]
      ⟨[], [], 0, 1⟩ []
      ⟨[], [⟨"b", some "http://b", "http_status_404", none⟩], 1, 1⟩ (by rfl)⟩

/-- C1 (counterexample to the claim as stated): with a 404 response whose
first failure-log append itself fails and whose second append succeeds,
the fetch invocation completes normally, returns no success pair, and has
invoked the Failure Recorder twice — not "exactly once" — while appending
one record. -/
theorem fetch_recorder_called_twice_counterexample :
    fetch_image ⟨.resp 404 (.bytes []), true, fun n => decide (n = 1)⟩ "t"
        (some "http://x") 0 ⟨[], [], 0, 1⟩ =
      (.ok none, ⟨[], [⟨"t", some "http://x", "unexpected_OSError", some "OSError"⟩], 2, 1⟩) ∧
    (2 : Nat) ≠ 1 :=
  ⟨by rfl, by decide⟩

theorem log_failure_only_logOk (env env' : Env) (t : String) (u : Option String)
    (r : String) (tb : Option String) (st : St) (h : env.logOk = env'.logOk) :
    log_failure env t u r tb st = log_failure env' t u r tb st := by
  unfold log_failure
  rw [h]

/-- C3 (amended): a row whose url is absent (`pd.isna`) or does not start
with the string `"http"` is never fetched: the Failure Recorder is called
once with reason `invalid_or_missing_url` (if that call itself fails, the
`OSError` propagates), the semaphore count is untouched (no admission-gate
slot is acquired), no file is written, and the result is independent of
the HTTP world and of the file-write world — no network call is
attempted. -/
theorem invalid_url_skipped (env : Env) (t : String) (u : Option String) (sc : Int)
    (st : St) (h : url_invalid u = true) :
    (env.logOk st.logCalls = true →
      fetch_image env t u sc st =
        (.ok none, { st with logCalls := st.logCalls + 1,
                             log := st.log ++ [⟨t, u, "invalid_or_missing_url", none⟩] })) ∧
    (env.logOk st.logCalls = false →
      fetch_image env t u sc st =
        (.error ⟨"OSError", false⟩, { st with logCalls := st.logCalls + 1 })) ∧
    (∀ (http' : HttpStep) (wOk : Bool),
      fetch_image ⟨http', wOk, env.logOk⟩ t u sc st = fetch_image env t u sc st) := by
  refine ⟨?_, ?_, ?_⟩
  · intro hok
    unfold fetch_image
    rw [h]
    simp only [if_true]
    unfold log_failure
    rw [hok]
    simp only [if_true]
  · intro hko
    unfold fetch_image
    rw [h]
    simp only [if_true]
    unfold log_failure
    rw [hko]
    simp only [Bool.false_eq_true, if_false]
  · intro http' wOk
    unfold fetch_image
    rw [h]
    simp only [if_true]
    rw [log_failure_only_logOk ⟨http', wOk, env.logOk⟩ env t u _ none st rfl]

/-- Witness for C3 (amended): a NaN url row is logged as
`invalid_or_missing_url` and returns no pair. -/
theorem invalid_url_skipped_witness :
    fetch_image ⟨.resp 200 (.bytes [1]), true, fun _ => true⟩ "t" none 0 ⟨[], [], 0, 1⟩ =
      (.ok none, ⟨[], [⟨"t", none, "invalid_or_missing_url", none⟩], 1, 1⟩) :=
  (invalid_url_skipped ⟨.resp 200 (.bytes [1]), true, fun _ => true⟩ "t" none 0
    ⟨[], [], 0, 1⟩ (by rfl)).1 (by rfl)

/-- C3 (counterexample to the claim as stated): `"httpgarbage"` does not
start with an HTTP(S) scheme, yet the code's check `startswith("http")`
accepts it, a network call is made, and with a 200 response the row
becomes a success — it is not classified `Skipped` and nothing is
logged. -/
theorem nonscheme_url_fetched_counterexample :
    startsWithHttpScheme "httpgarbage" = false ∧
    fetch_image ⟨.resp 200 (.bytes [7]), true, fun _ => true⟩ "t" (some "httpgarbage") 0
        ⟨[], [], 0, 1⟩ =
      (.ok (some ("poster_images/t.jpg", 0)), ⟨[("poster_images/t.jpg", [7])], [], 0, 1⟩) :=
  ⟨by decide, by rfl⟩

/-- C4: a valid-url row whose response status is not 200 is logged once
with reason `http_status_<code>` (the actual code interpolated via
`toString`), returns no success pair, and writes no file; only the
recorder counter, the log, and the released semaphore slot change. -/
theorem http_error_logged_no_file (env : Env) (t u' : String) (sc : Int) (st : St)
    (code : Nat) (rd : BodyRead)
    (hu : url_invalid (some u') = false)
    (hhttp : env.http = .resp code rd)
    (hcode : code ≠ 200)
    (hlog : env.logOk st.logCalls = true) :
    fetch_image env t (some u') sc st =
      (.ok none,
        ⟨st.files, st.log ++ [⟨t, some u', "http_status_" ++ toString code, none⟩],
          st.logCalls + 1, st.semAvail - 1 + 1⟩) := by
  unfold fetch_image
  rw [hu]
  simp only [Bool.false_eq_true, if_false]
  unfold try_body
  rw [hhttp]
  simp only
  rw [if_pos hcode]
  unfold log_failure
  simp only
  rw [hlog]
  simp only [if_true, release]

/-- Witness for C4: a 404 response yields `http_status_404`, one record,
no pair, no file. -/
theorem http_error_logged_no_file_witness :
    fetch_image ⟨.resp 404 (.bytes [9]), true, fun _ => true⟩ "movie" (some "http://p") 7
        ⟨[], [], 0, 5⟩ =
      (.ok none, ⟨[], [⟨"movie", some "http://p", "http_status_404", none⟩], 1, 5⟩) :=
  http_error_logged_no_file ⟨.resp 404 (.bytes [9]), true, fun _ => true⟩ "movie" "http://p" 7
    ⟨[], [], 0, 5⟩ 404 (.bytes [9]) (by rfl) rfl (by decide) (by rfl)

/-- A valid-url row with a 200 response, body `content` and a succeeding
file write: the fetch returns the success pair, the file at the sanitized
target path holds exactly `content`, and the log is untouched — for every
starting state. -/
theorem fetch_image_success_eq (env : Env) (t u' : String) (sc : Int)
    (content : List Nat)
    (hu : url_invalid (some u') = false)
    (hhttp : env.http = .resp 200 (.bytes content))
    (hw : env.writeOk = true) :
    ∀ st : St, fetch_image env t (some u') sc st =
      (.ok (some (IMAGE_DIR ++ "/" ++ sanitize_filename t 100, sc)),
        ⟨setFile st.files (IMAGE_DIR ++ "/" ++ sanitize_filename t 100) content,
          st.log, st.logCalls, st.semAvail - 1 + 1⟩) := by
  intro st
  unfold fetch_image
  rw [hu]
  simp only [Bool.false_eq_true, if_false]
  unfold try_body
  rw [hhttp]
  simp only
  rw [if_neg (by omega : ¬ (200 : Nat) ≠ 200)]
  rw [hw]
  simp only [if_true, release]

/-- Membership in the collected results: if a row's fetch returns a
success pair regardless of the entry state, that pair is collected by a
completed run containing the row. -/
theorem scrape_all_mem (pre post : List (Env × Row)) (env : Env) (row : Row)
    (p : String × Int)
    (hfetch : ∀ s, (fetch_image env row.title row.url row.score s).1 = .ok (some p))
    (st : St) (results : List (String × Int)) (stF : St)
    (h : scrape_all (pre ++ (env, row) :: post) st = (.ok results, stF)) :
    p ∈ results := by
  induction pre generalizing st results stF with
  | nil =>
    simp only [List.nil_append] at h
    unfold scrape_all at h
    split at h
    next e stA heq =>
      have hc := hfetch st
      rw [heq] at hc
      simp at hc
    next r stA heq =>
      have hc := hfetch st
      rw [heq] at hc
      simp only [Except.ok.injEq] at hc
      split at h
      next e stB heq2 => simp at h
      next rs stB heq2 =>
        simp only [Prod.mk.injEq, Except.ok.injEq] at h
        rw [← h.1, hc]
        simp
  | cons head rest ih =>
    obtain ⟨env1, row1⟩ := head
    simp only [List.cons_append] at h
    unfold scrape_all at h
    split at h
    next e stA heq => simp at h
    next r stA heq =>
      split at h
      next e stB heq2 => simp at h
      next rs stB heq2 =>
        simp only [Prod.mk.injEq, Except.ok.injEq] at h
        have hmem := ih stA rs stB heq2
        rw [← h.1]
        cases r with
        | some q => simp only []; exact List.mem_cons_of_mem q hmem
        | none => exact hmem

/-- C5: a valid-url row answered 200 with body `content` (and no I/O
error on the write) yields the success pair `(path, score)` with
`path = poster_images/sanitize(title)`, writes the file whose contents
equal `content` exactly, never calls the Failure Recorder, and the pair
is collected into the final success mapping of any completed run that
contains the row. -/
theorem success_writes_file_and_collected (env : Env) (t u' : String) (sc : Int)
    (content : List Nat) (st : St)
    (hu : url_invalid (some u') = false)
    (hhttp : env.http = .resp 200 (.bytes content))
    (hw : env.writeOk = true) :
    (fetch_image env t (some u') sc st).1 =
      .ok (some (IMAGE_DIR ++ "/" ++ sanitize_filename t 100, sc)) ∧
    lookupFile ((fetch_image env t (some u') sc st).2).files
        (IMAGE_DIR ++ "/" ++ sanitize_filename t 100) = some content ∧
    ((fetch_image env t (some u') sc st).2).log = st.log ∧
    ((fetch_image env t (some u') sc st).2).logCalls = st.logCalls ∧
    (∀ (pre post : List (Env × Row)) (st0 : St) (results : List (String × Int)) (stF : St),
      scrape_all (pre ++ (env, ⟨t, some u', sc⟩) :: post) st0 = (.ok results, stF) →
      (IMAGE_DIR ++ "/" ++ sanitize_filename t 100, sc) ∈ results) := by
  have he := fetch_image_success_eq env t u' sc content hu hhttp hw
  refine ⟨by rw [he st], ?_, by rw [he st], by rw [he st], ?_⟩
  · rw [he st]
    simp only [lookupFile, setFile, List.find?]
    simp
  · intro pre post st0 results stF h
    exact scrape_all_mem pre post env ⟨t, some u', sc⟩ _
      (fun s => by rw [he s]) st0 results stF h

/-- Witness for C5: a 200 response with body `[1, 2, 3]` writes
`poster_images/a.jpg` with exactly those bytes and the pair appears in
the singleton run's success mapping. -/
theorem success_writes_file_and_collected_witness :
    ((fetch_image ⟨.resp 200 (.bytes [1, 2, 3]), true, fun _ => true⟩ "a" (some "http://a") 9
        ⟨[], [], 0, 1⟩).1 =
      .ok (some (IMAGE_DIR ++ "/" ++ sanitize_filename "a" 100, 9))) ∧
    ("poster_images/a.jpg", (9 : Int)) ∈ [("poster_images/a.jpg", (9 : Int))] :=
  ⟨(success_writes_file_and_collected ⟨.resp 200 (.bytes [1, 2, 3]), true, fun _ => true⟩
      "a" "http://a" 9 [1, 2, 3] ⟨[], [], 0, 1⟩ (by rfl) rfl rfl).1,
    (success_writes_file_and_collected ⟨.resp 200 (.bytes [1, 2, 3]), true, fun _ => true⟩
      "a" "http://a" 9 [1, 2, 3] ⟨[], [], 0, 1⟩ (by rfl) rfl rfl).2.2.2.2
      [] [] ⟨[], [], 0, 1⟩ [("poster_images/a.jpg", 9)]
      ⟨[("poster_images/a.jpg", [1, 2, 3])], [], 0, 1⟩ (by rfl)⟩

/-- C6 (counterexample to the claim as stated): when the append to the
failure log fails, `log_failure` raises the `OSError` to its caller — the
Python function body has no exception handler. -/
theorem log_failure_raises_counterexample :
    (log_failure ⟨.resp 200 (.bytes []), true, fun _ => false⟩ "t" (some "u") "r" none
        ⟨[], [], 0, 1⟩).1 = .error ⟨"OSError", false⟩ :=
  rfl

/-- C6 (amended): `log_failure` returns normally exactly when the
underlying append succeeds; when it fails the exception propagates to the
caller, and a failure of the validation-site call even propagates out of
`fetch_image` to the Scheduler (spec §7 classifies a failure-log write
failure as batch-aborting, which is what the code does). -/
theorem log_failure_error_propagates :
    (∀ (env : Env) (t : String) (u : Option String) (r : String) (tb : Option String)
        (st : St),
      (log_failure env t u r tb st).1 = .ok () ↔ env.logOk st.logCalls = true) ∧
    (∀ (env : Env) (t : String) (u : Option String) (sc : Int) (st : St),
      url_invalid u = true → env.logOk st.logCalls = false →
      (fetch_image env t u sc st).1 = .error ⟨"OSError", false⟩) := by
  constructor
  · intro env t u r tb st
    unfold log_failure
    split
    · simp only [true_iff]
      assumption
    · simp only [iff_false]
      constructor
      · intro hcontra
        simp at hcontra
      · simp_all
  · intro env t u sc st h hko
    rw [((invalid_url_skipped env t u sc st h).2.1 hko)]

/-- Witness for C6 (amended): with a failing log oracle, a NaN-url fetch
propagates the `OSError` to the Scheduler. -/
theorem log_failure_error_propagates_witness :
    ((log_failure ⟨.resp 200 (.bytes []), true, fun _ => true⟩ "t" none "r" none
        ⟨[], [], 0, 1⟩).1 = .ok () ↔ true = true) ∧
    (fetch_image ⟨.resp 200 (.bytes []), true, fun _ => false⟩ "t" none 0
        ⟨[], [], 0, 1⟩).1 = .error ⟨"OSError", false⟩ :=
  ⟨log_failure_error_propagates.1 ⟨.resp 200 (.bytes []), true, fun _ => true⟩ "t" none "r"
      none ⟨[], [], 0, 1⟩,
    log_failure_error_propagates.2 ⟨.resp 200 (.bytes []), true, fun _ => false⟩ "t" none 0
      ⟨[], [], 0, 1⟩ (by rfl) (by rfl)⟩

theorem handle_exc_files (env : Env) (t : String) (u : Option String) (e : Exc)
    (st : St) : ((handle_exc env t u e st).2).files = st.files := by
  unfold handle_exc
  simp only
  split
  next x stA heq =>
    have h := log_failure_snd_files env t u
      (if e.transport then e.name else "unexpected_" ++ e.name)
      (if e.transport then none else some e.name) st
    rw [heq] at h
    exact h
  next e2 stA heq =>
    have h := log_failure_snd_files env t u
      (if e.transport then e.name else "unexpected_" ++ e.name)
      (if e.transport then none else some e.name) st
    rw [heq] at h
    exact h

/-- When the GET raises during connect, or the response status is 200 but
the body read raises, the try-block touches no file: it never reaches the
`aiofiles.open`. -/
theorem try_body_files_network_error (env : Env) (t : String) (u : Option String)
    (p : String) (sc : Int) (st : St)
    (h : (∃ e, env.http = .raise e) ∨ (∃ code e, env.http = .resp code (.raise e))) :
    ((try_body env t u p sc st).2).files = st.files := by
  unfold try_body
  rcases h with ⟨e, he⟩ | ⟨code, e, he⟩
  · rw [he]
  · rw [he]
    simp only
    split
    · split
      next x stA heq =>
        have h2 := log_failure_snd_files env t u ("http_status_" ++ toString code) none st
        rw [heq] at h2
        exact h2
      next e2 stA heq =>
        have h2 := log_failure_snd_files env t u ("http_status_" ++ toString code) none st
        rw [heq] at h2
        exact h2
    · rfl

/-- C10: the target file is opened only after the status check and a full
body read, so on every outcome caused by an exception during connect or
during the body read — transport error, timeout, or anything else — the
file system is left exactly as it was: no empty or partial file appears
at the row's target path. -/
theorem network_error_leaves_files_unchanged (env : Env) (t : String) (u : Option String)
    (sc : Int) (st : St)
    (h : (∃ e, env.http = .raise e) ∨ (∃ code e, env.http = .resp code (.raise e))) :
    ((fetch_image env t u sc st).2).files = st.files := by
  unfold fetch_image
  split
  · split
    next x stA heq =>
      have h2 := log_failure_snd_files env t u "invalid_or_missing_url" none st
      rw [heq] at h2
      exact h2
    next e stA heq =>
      have h2 := log_failure_snd_files env t u "invalid_or_missing_url" none st
      rw [heq] at h2
      exact h2
  · simp only
    split
    next v stB heq =>
      have h2 := try_body_files_network_error env t u
        (IMAGE_DIR ++ "/" ++ sanitize_filename t 100) sc
        { st with semAvail := st.semAvail - 1 } h
      rw [heq] at h2
      simp only [release]
      exact h2
    next e stB heq =>
      have h2 := try_body_files_network_error env t u
        (IMAGE_DIR ++ "/" ++ sanitize_filename t 100) sc
        { st with semAvail := st.semAvail - 1 } h
      rw [heq] at h2
      have h3 := handle_exc_files env t u e stB
      simp only [release]
      rw [h3, h2]

/-- Witness for C10: a read timeout on a 200 response leaves the file
system empty. -/
theorem network_error_leaves_files_unchanged_witness :
    ((fetch_image ⟨.resp 200 (.raise ⟨"TimeoutError", true⟩), true, fun _ => true⟩ "t"
        (some "http://x") 0 ⟨[], [], 0, 1⟩).2).files = [] :=
  network_error_leaves_files_unchanged
    ⟨.resp 200 (.raise ⟨"TimeoutError", true⟩), true, fun _ => true⟩ "t" (some "http://x") 0
    ⟨[], [], 0, 1⟩ (Or.inr ⟨200, ⟨"TimeoutError", true⟩, rfl⟩)

/-! ### The failure-log file format

`log_failure` writes `json.dumps(record, ensure_ascii=False) + "\n"`.
The embedding below reproduces CPython's `json` encoder on the fixed
record shape: object keys in insertion order with `", "` and `": "`
separators, strings quoted with `\"`, `\\`, `\n`, `\r`, `\t`, `\b`, `\f`
and `\u00XX` escapes (other characters, ASCII or not, are emitted
literally since `ensure_ascii=False`), a NaN url emitted as the token
`NaN`, and `tb=None` emitted as `null`.  The parser is the inverse used
to state that each emitted line is independently parseable. -/

/-- Lower-case hexadecimal digit, as used by CPython's `\u00XX` escapes. -/
def hexDigit (n : Nat) : Char :=
  if n < 10 then Char.ofNat (48 + n) else Char.ofNat (87 + n)

/-- CPython `json` escaping of one character. -/
def encodeChar (c : Char) : List Char :=
  if c = '\\' then ['\\', '\\']
  else if c = '"' then ['\\', '"']
  else if c = '\n' then ['\\', 'n']
  else if c = '\r' then ['\\', 'r']
  else if c = '\t' then ['\\', 't']
  else if c = '\x08' then ['\\', 'b']
  else if c = '\x0c' then ['\\', 'f']
  else if c.toNat < 32 then
    ['\\', 'u', '0', '0', hexDigit (c.toNat / 16), hexDigit (c.toNat % 16)]
  else [c]

/-- Escaped body of a JSON string. -/
def encodeString (s : String) : List Char :=
  (s.data.map encodeChar).flatten

/-- A JSON string literal: quoted escaped body. -/
def jsonStr (s : String) : List Char :=
  '"' :: (encodeString s ++ ['"'])

/-- One serialized failure record, exactly as
`json.dumps(record, ensure_ascii=False)` renders it. -/
def serializeRecord (r : FailureRecord) : List Char :=
  "\x7b\"title\": ".data ++ jsonStr r.title ++
  ", \"url\": ".data ++
    (match r.url with | none => "NaN".data | some u => jsonStr u) ++
  ", \"reason\": ".data ++ jsonStr r.reason ++
  ", \"traceback\": ".data ++
    (match r.traceback with | none => "null".data | some s => jsonStr s) ++
  "\x7d".data

/-- The line appended to `poster_download_failures.jsonl` for one record. -/
def logLine (r : FailureRecord) : List Char :=
  serializeRecord r ++ ['\n']

/-- The contents of `poster_download_failures.jsonl` determined by the
record list of the state. -/
def logFileContents (st : St) : List Char :=
  (st.log.map logLine).flatten

/-- Value of one hexadecimal digit, as accepted by `json.loads`. -/
def hexVal (c : Char) : Option Nat :=
  if '0' ≤ c ∧ c ≤ '9' then some (c.toNat - 48)
  else if 'a' ≤ c ∧ c ≤ 'f' then some (c.toNat - 87)
  else if 'A' ≤ c ∧ c ≤ 'F' then some (c.toNat - 55)
  else none

/-- Single-character JSON escapes. -/
def unescapeChar (c : Char) : Option Char :=
  if c = '"' then some '"'
  else if c = '\\' then some '\\'
  else if c = '/' then some '/'
  else if c = 'n' then some '\n'
  else if c = 'r' then some '\r'
  else if c = 't' then some '\t'
  else if c = 'b' then some '\x08'
  else if c = 'f' then some '\x0c'
  else none

/-- Decode the body of a JSON string up to its closing quote; returns the
decoded characters and the input remaining after the quote. -/
def decodeJString : List Char → Option (List Char × List Char)
  | [] => none
  | c :: rest =>
    if c = '"' then some ([], rest)
    else if c = '\\' then
      match rest with
      | 'u' :: h1 :: h2 :: h3 :: h4 :: rest' =>
        match hexVal h1, hexVal h2, hexVal h3, hexVal h4 with
        | some v1, some v2, some v3, some v4 =>
          if ((v1 * 16 + v2) * 16 + v3) * 16 + v4 < 55296 then
            match decodeJString rest' with
            | some (s, r) => some (Char.ofNat (((v1 * 16 + v2) * 16 + v3) * 16 + v4) :: s, r)
            | none => none
          else none
        | _, _, _, _ => none
      | e :: rest' =>
        match unescapeChar e with
        | some c' =>
          match decodeJString rest' with
          | some (s, r) => some (c' :: s, r)
          | none => none
        | none => none
      | [] => none
    else
      match decodeJString rest with
      | some (s, r) => some (c :: s, r)
      | none => none

/-- Consume an expected literal prefix. -/
def dropLit : List Char → List Char → Option (List Char)
  | [], input => some input
  | _ :: _, [] => none
  | c :: lit, d :: input => if c = d then dropLit lit input else none

/-- Parse a quoted JSON string. -/
def parseJsonStringField : List Char → Option (String × List Char)
  | '"' :: rest =>
    (match decodeJString rest with
      | some (s, r) => some (⟨s⟩, r)
      | none => none)
  | _ => none

/-- Parse the url position: the token `NaN` or a string. -/
def parseUrlField : List Char → Option (Option String × List Char)
  | 'N' :: 'a' :: 'N' :: rest => some (none, rest)
  | input =>
    (match parseJsonStringField input with
      | some (s, r) => some (some s, r)
      | none => none)

/-- Parse the traceback position: the token `null` or a string. -/
def parseTbField : List Char → Option (Option String × List Char)
  | 'n' :: 'u' :: 'l' :: 'l' :: rest => some (none, rest)
  | input =>
    (match parseJsonStringField input with
      | some (s, r) => some (some s, r)
      | none => none)

/-- Parse one full failure-log line back into a record. -/
def parseRecordLine (input : List Char) : Option FailureRecord :=
  match dropLit "\x7b\"title\": ".data input with
  | none => none
  | some r1 =>
    match parseJsonStringField r1 with
    | none => none
    | some (title, r2) =>
      match dropLit ", \"url\": ".data r2 with
      | none => none
      | some r3 =>
        match parseUrlField r3 with
        | none => none
        | some (url, r4) =>
          match dropLit ", \"reason\": ".data r4 with
          | none => none
          | some r5 =>
            match parseJsonStringField r5 with
            | none => none
            | some (reason, r6) =>
              match dropLit ", \"traceback\": ".data r6 with
              | none => none
              | some r7 =>
                match parseTbField r7 with
                | none => none
                | some (tb, r8) =>
                  match dropLit "\x7d\n".data r8 with
                  | none => none
                  | some r9 => if r9 = [] then some ⟨title, url, reason, tb⟩ else none

theorem hexVal_hexDigit (d : Nat) (h : d < 16) : hexVal (hexDigit d) = some d := by
  interval_cases d <;> decide

theorem decodeJString_encodeChar (c : Char) (tail : List Char) :
    decodeJString (encodeChar c ++ tail) =
      (decodeJString tail).map (fun p => (c :: p.1, p.2)) := by
  unfold encodeChar
  split
  next hc =>
    subst hc
    cases htail : decodeJString tail with
    | none => simp [decodeJString, unescapeChar, htail]
    | some p => obtain ⟨s, r⟩ := p; simp [decodeJString, unescapeChar, htail]
  next hc1 =>
    split
    next hc =>
      subst hc
      cases htail : decodeJString tail with
      | none => simp [decodeJString, unescapeChar, htail]
      | some p => obtain ⟨s, r⟩ := p; simp [decodeJString, unescapeChar, htail]
    next hc2 =>
      split
      next hc =>
        subst hc
        cases htail : decodeJString tail with
        | none => simp [decodeJString, unescapeChar, htail]
        | some p => obtain ⟨s, r⟩ := p; simp [decodeJString, unescapeChar, htail]
      next hc3 =>
        split
        next hc =>
          subst hc
          cases htail : decodeJString tail with
          | none => simp [decodeJString, unescapeChar, htail]
          | some p => obtain ⟨s, r⟩ := p; simp [decodeJString, unescapeChar, htail]
        next hc4 =>
          split
          next hc =>
            subst hc
            cases htail : decodeJString tail with
            | none => simp [decodeJString, unescapeChar, htail]
            | some p => obtain ⟨s, r⟩ := p; simp [decodeJString, unescapeChar, htail]
          next hc5 =>
            split
            next hc =>
              subst hc
              cases htail : decodeJString tail with
              | none => simp [decodeJString, unescapeChar, htail]
              | some p => obtain ⟨s, r⟩ := p; simp [decodeJString, unescapeChar, htail]
            next hc6 =>
              split
              next hc =>
                subst hc
                cases htail : decodeJString tail with
                | none => simp [decodeJString, unescapeChar, htail]
                | some p => obtain ⟨s, r⟩ := p; simp [decodeJString, unescapeChar, htail]
              next hc7 =>
                split
                next h32 =>
                  have hd1 : hexVal (hexDigit (c.toNat / 16)) = some (c.toNat / 16) :=
                    hexVal_hexDigit _ (by omega)
                  have hd2 : hexVal (hexDigit (c.toNat % 16)) = some (c.toNat % 16) :=
                    hexVal_hexDigit _ (by omega)
                  have hn : ((0 * 16 + 0) * 16 + c.toNat / 16) * 16 + c.toNat % 16 =
                      c.toNat := by omega
                  cases htail : decodeJString tail with
                  | none =>
                    simp [decodeJString, hd1, hd2, htail, hn,
                      show hexVal '0' = some 0 from rfl]
                  | some p =>
                    obtain ⟨s, r⟩ := p
                    simp [decodeJString, hd1, hd2, htail, hn,
                      show hexVal '0' = some 0 from rfl]
                    refine ⟨by omega, ?_⟩
                    rw [show c.toNat / 16 * 16 + c.toNat % 16 = c.toNat from by omega]
                    exact Char.ofNat_toNat c
                next h32 =>
                  cases htail : decodeJString tail with
                  | none =>
                    show decodeJString (c :: tail) = none
                    rw [decodeJString.eq_def]
                    dsimp only
                    rw [if_neg hc2, if_neg hc1, htail]
                  | some p =>
                    obtain ⟨s, r⟩ := p
                    show decodeJString (c :: tail) = some (c :: s, r)
                    rw [decodeJString.eq_def]
                    dsimp only
                    rw [if_neg hc2, if_neg hc1, htail]

theorem decodeJString_encodeString (l : List Char) (tail : List Char) :
    decodeJString ((l.map encodeChar).flatten ++ '"' :: tail) = some (l, tail) := by
  induction l with
  | nil =>
    show decodeJString ('"' :: tail) = some ([], tail)
    rw [decodeJString.eq_def]
    dsimp only
    rw [if_pos rfl]
  | cons c cs ih =>
    simp only [List.map_cons, List.flatten_cons, List.append_assoc]
    rw [decodeJString_encodeChar, ih]
    rfl

theorem parseJsonStringField_jsonStr (s : String) (tail : List Char) :
    parseJsonStringField (jsonStr s ++ tail) = some (s, tail) := by
  show (match decodeJString ((encodeString s ++ ['"']) ++ tail) with
    | some (s', r) => some ((⟨s'⟩ : String), r)
    | none => none) = some (s, tail)
  rw [List.append_assoc]
  show (match decodeJString (encodeString s ++ '"' :: tail) with
    | some (s', r) => some ((⟨s'⟩ : String), r)
    | none => none) = some (s, tail)
  rw [show encodeString s = (s.data.map encodeChar).flatten from rfl,
    decodeJString_encodeString]

theorem parseUrlField_jsonStr (u : String) (tail : List Char) :
    parseUrlField (jsonStr u ++ tail) = some (some u, tail) := by
  show (match parseJsonStringField (jsonStr u ++ tail) with
    | some (s, r) => some (some s, r)
    | none => none) = some (some u, tail)
  rw [parseJsonStringField_jsonStr]

theorem parseUrlField_nan (tail : List Char) :
    parseUrlField (['N', 'a', 'N'] ++ tail) = some (none, tail) := rfl

theorem parseTbField_jsonStr (s : String) (tail : List Char) :
    parseTbField (jsonStr s ++ tail) = some (some s, tail) := by
  show (match parseJsonStringField (jsonStr s ++ tail) with
    | some (s', r) => some (some s', r)
    | none => none) = some (some s, tail)
  rw [parseJsonStringField_jsonStr]

theorem parseTbField_null (tail : List Char) :
    parseTbField (['n', 'u', 'l', 'l'] ++ tail) = some (none, tail) := rfl

theorem dropLit_append (lit input : List Char) :
    dropLit lit (lit ++ input) = some input := by
  induction lit with
  | nil => rfl
  | cons c cs ih =>
    show dropLit (c :: cs) (c :: (cs ++ input)) = some input
    rw [dropLit]
    rw [if_pos rfl, ih]

theorem dropLit_close :
    dropLit ['\x7d', '\n'] (['\x7d'] ++ ['\n']) = some [] := rfl

/-- Parsing inverts serialization: every failure record is recovered
exactly from its log line. -/
theorem parseRecordLine_logLine (r : FailureRecord) :
    parseRecordLine (logLine r) = some r := by
  obtain ⟨t, u, rsn, tb⟩ := r
  show parseRecordLine (serializeRecord ⟨t, u, rsn, tb⟩ ++ ['\n']) = _
  unfold serializeRecord parseRecordLine
  cases u <;> cases tb <;>
    simp only [List.append_assoc, dropLit_append, parseJsonStringField_jsonStr,
      parseUrlField_jsonStr, parseUrlField_nan, parseTbField_jsonStr, parseTbField_null,
      dropLit_close, if_pos rfl, if_true]

theorem hexDigit_ne_newline (d : Nat) (h : d < 16) : hexDigit d ≠ '\n' := by
  interval_cases d <;> decide

theorem encodeChar_no_newline (c : Char) : '\n' ∉ encodeChar c := by
  unfold encodeChar
  split
  next => decide
  next h1 =>
    split
    next => decide
    next h2 =>
      split
      next => decide
      next h3 =>
        split
        next => decide
        next h4 =>
          split
          next => decide
          next h5 =>
            split
            next => decide
            next h6 =>
              split
              next => decide
              next h7 =>
                split
                next h32 =>
                  intro hmem
                  simp only [List.mem_cons, List.not_mem_nil, or_false] at hmem
                  rcases hmem with h | h | h | h | h | h
                  · exact absurd h (by decide)
                  · exact absurd h (by decide)
                  · exact absurd h (by decide)
                  · exact absurd h (by decide)
                  · exact absurd h.symm (hexDigit_ne_newline _ (by omega))
                  · exact absurd h.symm (hexDigit_ne_newline _ (by omega))
                next h32 =>
                  intro hmem
                  simp only [List.mem_singleton] at hmem
                  exact h3 hmem.symm

theorem jsonStr_no_newline (s : String) : '\n' ∉ jsonStr s := by
  unfold jsonStr encodeString
  intro hmem
  simp only [List.mem_cons, List.mem_append, List.mem_flatten, List.mem_map,
    List.mem_singleton] at hmem
  rcases hmem with h | ⟨l, ⟨c, hc, hl⟩, hmem⟩ | h
  · exact absurd h (by decide)
  · exact encodeChar_no_newline c (hl ▸ hmem)
  · exact absurd h (by decide)

/-- No serialized record contains a newline: every escape-worthy
character, the newline included, is escaped, so each record occupies
exactly one line of the failure log. -/
theorem serializeRecord_no_newline (r : FailureRecord) : '\n' ∉ serializeRecord r := by
  obtain ⟨t, u, rsn, tb⟩ := r
  unfold serializeRecord
  intro hmem
  simp only [List.mem_append] at hmem
  rcases hmem with ((((((((h | h) | h) | h) | h) | h) | h) | h) | h)
  · exact absurd h (by decide)
  · exact jsonStr_no_newline t h
  · exact absurd h (by decide)
  · cases u with
    | none => exact absurd h (by decide)
    | some u' => exact jsonStr_no_newline u' h
  · exact absurd h (by decide)
  · exact jsonStr_no_newline rsn h
  · exact absurd h (by decide)
  · cases tb with
    | none => exact absurd h (by decide)
    | some s => exact jsonStr_no_newline s h
  · exact absurd h (by decide)

/-- C9: every Failure-Recorder call that completes appends exactly one
record line to the failure log; each line is a self-contained structured
record — it parses back, in isolation, to exactly the record it encodes,
fields `title`, `url`, `reason` and the optional diagnostic (`traceback`)
included, also when the url is absent/NaN — and each serialized record
contains no newline, so records are newline-delimited and independently
parseable. -/
theorem failure_log_lines_selfcontained :
    (∀ (env : Env) (t : String) (u : Option String) (rsn : String) (tb : Option String)
        (st : St), env.logOk st.logCalls = true →
      logFileContents ((log_failure env t u rsn tb st).2) =
        logFileContents st ++ logLine ⟨t, u, rsn, tb⟩) ∧
    (∀ r : FailureRecord, parseRecordLine (logLine r) = some r) ∧
    (∀ r : FailureRecord, '\n' ∉ serializeRecord r) := by
  refine ⟨?_, parseRecordLine_logLine, serializeRecord_no_newline⟩
  intro env t u rsn tb st hok
  unfold log_failure
  rw [hok]
  simp only [if_true, logFileContents]
  simp

/-- Witness for C9 at a concrete input: a NaN-url record appended to an
empty log yields exactly its one line, and that line parses back. -/
theorem failure_log_lines_selfcontained_witness :
    logFileContents ((log_failure ⟨.resp 200 (.bytes []), true, fun _ => true⟩ "t" none
        "invalid_or_missing_url" none ⟨[], [], 0, 1⟩).2) =
      logFileContents ⟨[], [], 0, 1⟩ ++ logLine ⟨"t", none, "invalid_or_missing_url", none⟩ ∧
    parseRecordLine (logLine ⟨"t", none, "invalid_or_missing_url", none⟩) =
      some ⟨"t", none, "invalid_or_missing_url", none⟩ :=
  ⟨failure_log_lines_selfcontained.1 ⟨.resp 200 (.bytes []), true, fun _ => true⟩ "t" none
      "invalid_or_missing_url" none ⟨[], [], 0, 1⟩ rfl,
    failure_log_lines_selfcontained.2.1 ⟨"t", none, "invalid_or_missing_url", none⟩⟩
